import Mathlib

/-! Voice page script (`src/script.js`): a shallow embedding.

The script wires a page to two remote endpoints (text to speech, speech to
text), records microphone audio, and spins a particle field in the
background.  The embedding keeps the script's global variables and the parts
of the DOM it writes in one record, `Page`; every handler of the script is a
function on that record, and the browser is the relation `step` that says
which handler may run next.

Numbers of the animation are kept apart (`Rotation`, `initParticles`), since
the handlers never read them.
-/

namespace VoicePage

/-! ## JavaScript values -/

/-- The JavaScript values a parsed JSON body and its fields can hold.
`undefined` is what reading an absent property gives.  Numbers and arrays are
left out: the endpoints exchange strings and objects only. -/
inductive JsVal where
  | undefined
  | null
  | bool (b : Bool)
  | str (s : String)
  | obj (props : List (String × JsVal))

namespace JsVal

/-- ToBoolean, the test an `if (v)` performs: `undefined`, `null`, `false`
and the empty string are falsy, every object is truthy. -/
def toBoolean : JsVal → Bool
  | undefined => false
  | null => false
  | bool b => b
  | str s => decide (s ≠ "")
  | obj _ => true

/-- ToString, the conversion of a template literal and of an assignment to a
text field. -/
def toStr : JsVal → String
  | undefined => "undefined"
  | null => "null"
  | bool true => "true"
  | bool false => "false"
  | str s => s
  | obj _ => "[object Object]"

/-- Property read `v.key` for a key that no prototype defines (such as
`transcription` and `error`): a TypeError on `undefined` and `null`,
`undefined` on the other primitives and on an object without the key. -/
def getProp (v : JsVal) (key : String) : Except String JsVal :=
  match v with
  | undefined => .error "TypeError"
  | null => .error "TypeError"
  | obj props => .ok ((props.lookup key).getD undefined)
  | _ => .ok undefined

/-- The object has an own property `key`. -/
def hasProp (v : JsVal) (key : String) : Bool :=
  match v with
  | obj props => (props.lookup key).isSome
  | _ => false

end JsVal

/-! ## Blobs, requests, recorders -/

/-- A `Blob`: its bytes and its MIME type. -/
structure Blob where
  bytes : List Nat
  type : String
deriving DecidableEq, Repr

/-- The `size` attribute of a blob. -/
def Blob.size (b : Blob) : Nat := b.bytes.length

/-- Constructor `new Blob(parts, { type })`: the parts' bytes, in order. -/
def Blob.ofParts (parts : List Blob) (type : String) : Blob :=
  ⟨(parts.map Blob.bytes).flatten, type⟩

/-- The result of `URL.createObjectURL(blob)`: a URL that resolves to `blob`. -/
structure ObjectUrl where
  target : Blob
deriving DecidableEq, Repr

/-- One part of a `FormData` body. -/
structure FormPart where
  name : String
  value : Blob
  filename : String
deriving DecidableEq, Repr

/-- The body of a request: `JSON.stringify(v)`, or multipart form data. -/
inductive RequestBody where
  | json (v : JsVal)
  | formData (parts : List FormPart)

/-- A call of `fetch`. -/
structure Request where
  url : String
  method : String
  headers : List (String × String)
  body : RequestBody

/-- Life cycle of a `MediaRecorder`.  Its `state` attribute reads
`'recording'` in `recording` and `'inactive'` in the other two; in `stopping`
the recorder has been told to stop and its stop event has not fired yet. -/
inductive RecorderState where
  | recording
  | stopping
  | inactive
deriving DecidableEq, Repr

/-- The element `displayRecordedAudio` puts into `#audio-container`: an audio
player and the send button. -/
structure Widget where
  controls : Bool
  src : Option ObjectUrl
  sendButtonText : String
deriving DecidableEq, Repr

/-! ## The page -/

/-- The script's global variables and the DOM state it reads and writes. -/
structure Page where
  /-- Value of `window.location.hostname`. -/
  hostname : String
  /-- Value of `textInput.value`. -/
  textInput : String
  /-- Every `fetch` issued so far, oldest first. -/
  requests : List Request
  /-- Text-to-speech requests that have not settled (indices in `requests`). -/
  ttsPending : List Nat
  /-- Speech-to-text requests that have not settled (indices in `requests`). -/
  sttPending : List Nat
  /-- Messages shown by `alert`. -/
  alerts : List String
  /-- First argument of every `console.error` call. -/
  consoleErrors : List String
  /-- Blobs handed to `new Audio(url).play()`. -/
  playbacks : List Blob
  /-- Calls of `getUserMedia` that have not settled. -/
  micRequests : Nat
  /-- Flag `startRecordingButton.disabled`. -/
  startDisabled : Bool
  /-- Flag `stopRecordingButton.disabled`. -/
  stopDisabled : Bool
  /-- Text `recordingStatus.textContent`. -/
  recordingStatus : String
  /-- Every `MediaRecorder` created so far; a recorder is named by its index. -/
  recorders : List RecorderState
  /-- Variable `mediaRecorder`. -/
  mediaRecorder : Option Nat
  /-- Variable `audioChunks`. -/
  audioChunks : List Blob
  /-- Variable `audioBlob`. -/
  audioBlob : Option Blob
  /-- Variable `audioUrl`. -/
  audioUrl : Option ObjectUrl
  /-- Content of `#audio-container`. -/
  audioContainer : Option Widget
  /-- Variable `isProcessing`. -/
  isProcessing : Bool
  /-- Value of `textOutput.value`. -/
  textOutput : String
  /-- Number of `scrollToOutput` calls. -/
  scrolls : Nat

/-- Modelled from the spec: the page's markup is not part of the script; a
freshly loaded page has an empty input and output, recording controls in the
idle position (start enabled, stop disabled), and every script variable at
its declared initial value. -/
def Page.loaded (hostname : String) : Page where
  hostname := hostname
  textInput := ""
  requests := []
  ttsPending := []
  sttPending := []
  alerts := []
  consoleErrors := []
  playbacks := []
  micRequests := 0
  startDisabled := false
  stopDisabled := true
  recordingStatus := ""
  recorders := []
  mediaRecorder := none
  audioChunks := []
  audioBlob := none
  audioUrl := none
  audioContainer := none
  isProcessing := false
  textOutput := ""
  scrolls := 0

/-! ## Text to speech (lines 19-40) -/

/-- The request of line 22: `POST https://<host>:3000/tts`, JSON body
`{ text }`. -/
def ttsRequest (hostname text : String) : Request where
  url := "https://" ++ hostname ++ ":3000/tts"
  method := "POST"
  headers := [("Content-Type", "application/json")]
  body := .json (.obj [("text", .str text)])

/-- Click handler of the speak button, up to the dispatch of `fetch`. -/
def speakClick (s : Page) : Page :=
  let text := s.textInput
  if text ≠ "" then
    { s with
      requests := s.requests ++ [ttsRequest s.hostname text]
      ttsPending := s.ttsPending ++ [s.requests.length] }
  else s

/-- How a text-to-speech `fetch` chain can settle. -/
inductive TtsOutcome where
  /-- The promise returned by `fetch` rejects. -/
  | rejected
  /-- A response with this status arrives, and `response.blob()` rejects. -/
  | unreadable (status : Nat)
  /-- A response with this status arrives, and `response.blob()` gives `blob`. -/
  | body (status : Nat) (blob : Blob)

/-- The `.then(blob => ...)` and `.catch(error => ...)` callbacks of the
speak handler. -/
def ttsSettled (s : Page) : TtsOutcome → Page
  | .body _ blob =>
    let audioUrl : ObjectUrl := ⟨blob⟩
    { s with playbacks := s.playbacks ++ [audioUrl.target] }
  | _ =>
    { s with
      consoleErrors := s.consoleErrors ++ ["Error:"]
      alerts := s.alerts ++ ["Error converting text to speech"] }

/-! ## Recording (lines 43-93) -/

/-- Click handler of the start button up to its `await`: microphone access is
requested. -/
def startClick (s : Page) : Page :=
  { s with micRequests := s.micRequests + 1 }

/-- Rest of the start handler once `getUserMedia` settles.  When access is
granted a new recorder is created, stored in `mediaRecorder` and started;
when it is refused the `catch` block logs the error. -/
def micSettled (s : Page) (granted : Bool) : Page :=
  if granted then
    { s with
      recorders := s.recorders ++ [RecorderState.recording]
      mediaRecorder := some s.recorders.length
      recordingStatus := "Recording..."
      startDisabled := true
      stopDisabled := false }
  else
    { s with consoleErrors := s.consoleErrors ++ ["Error accessing microphone:"] }

/-- Condition `mediaRecorder && mediaRecorder.state === 'recording'`. -/
def isRecording (s : Page) : Bool :=
  match s.mediaRecorder with
  | none => false
  | some r => decide (s.recorders[r]? = some RecorderState.recording)

/-- Click handler of the stop button. -/
def stopClick (s : Page) : Page :=
  match s.mediaRecorder with
  | none => s
  | some r =>
    if s.recorders[r]? = some RecorderState.recording then
      { s with
        recorders := s.recorders.set r RecorderState.stopping
        recordingStatus := "Recording stopped"
        startDisabled := false
        stopDisabled := true }
    else s

/-- Handler `mediaRecorder.ondataavailable`. -/
def ondataavailable (s : Page) (data : Blob) : Page :=
  { s with audioChunks := s.audioChunks ++ [data] }

/-- Function `displayRecordedAudio`. -/
def displayRecordedAudio (s : Page) : Page :=
  { s with audioContainer := some ⟨true, s.audioUrl, "Send to Server"⟩ }

/-- Handler `mediaRecorder.onstop`. -/
def onstop (s : Page) : Page :=
  let audioBlob := Blob.ofParts s.audioChunks "audio/wav"
  let s1 := { s with audioBlob := some audioBlob, audioUrl := some ⟨audioBlob⟩ }
  let s2 := displayRecordedAudio s1
  { s2 with audioChunks := [] }

/-! ## Speech to text (lines 95-128) -/

/-- The request of line 102: `POST https://<host>:3000/stt` with the
recording as the form part `audio`. -/
def sttRequest (hostname : String) (audioBlob : Blob) : Request where
  url := "https://" ++ hostname ++ ":3000/stt"
  method := "POST"
  headers := []
  body := .formData [⟨"audio", audioBlob, "recording.wav"⟩]

/-- Function `sendAudioToServer`, up to the dispatch of `fetch`. -/
def sendAudioToServer (s : Page) (audioBlob : Blob) : Page :=
  { s with
    isProcessing := true
    requests := s.requests ++ [sttRequest s.hostname audioBlob]
    sttPending := s.sttPending ++ [s.requests.length] }

/-- Click handler of the send button: `() => sendAudioToServer(audioBlob)`,
reading the variable `audioBlob` at the time of the click. -/
def sendClick (s : Page) : Page :=
  match s.audioBlob with
  | some b => sendAudioToServer s b
  | none => s

/-- Function `scrollToOutput`. -/
def scrollToOutput (s : Page) : Page :=
  { s with scrolls := s.scrolls + 1 }

/-- How a speech-to-text `fetch` chain can settle. -/
inductive SttOutcome where
  /-- The promise returned by `fetch` rejects. -/
  | rejected
  /-- A response arrives and `response.json()` rejects: the body is not JSON. -/
  | notJson
  /-- A response arrives and its body parses to `data`. -/
  | json (data : JsVal)

/-- The `.then(data => ...)` callback (lines 107-120); it throws when a
property of `data` cannot be read. -/
def sttData (s : Page) (data : JsVal) : Except String Page := do
  let transcription ← data.getProp "transcription"
  if transcription.toBoolean then
    pure (scrollToOutput { s with textOutput := transcription.toStr })
  else
    let error ← data.getProp "error"
    if error.toBoolean then
      pure (scrollToOutput
        { s with
          textOutput := "Error: " ++ error.toStr
          consoleErrors := s.consoleErrors ++ ["Server error details:"] })
    else
      pure (scrollToOutput { s with textOutput := "An unknown error occurred" })

/-- The `.catch(error => ...)` callback (lines 121-124). -/
def sttCatch (s : Page) : Page :=
  { s with
    consoleErrors := s.consoleErrors ++ ["Fetch error:"]
    textOutput := "Error processing audio" }

/-- The `.finally(() => ...)` callback (lines 125-127). -/
def sttFinally (s : Page) : Page :=
  { s with isProcessing := false }

/-- The whole promise chain of `sendAudioToServer` for one outcome. -/
def sttSettled (s : Page) : SttOutcome → Page
  | .json data =>
    match sttData s data with
    | .ok s1 => sttFinally s1
    | .error _ => sttFinally (sttCatch s)
  | _ => sttFinally (sttCatch s)

/-! ## The browser: which handler may run next -/

/-- What can happen on the page. -/
inductive Event where
  /-- The user edits the text input. -/
  | input (text : String)
  /-- A click on the speak button. -/
  | speakClick
  /-- The text-to-speech request `id` settles. -/
  | ttsSettle (id : Nat) (outcome : TtsOutcome)
  /-- A click on the start button. -/
  | startClick
  /-- A pending `getUserMedia` call settles. -/
  | micSettle (granted : Bool)
  /-- A click on the stop button. -/
  | stopClick
  /-- Recorder `r` delivers a fragment. -/
  | dataAvailable (r : Nat) (data : Blob)
  /-- The stop event of recorder `r` fires. -/
  | recorderStop (r : Nat)
  /-- A click on the send button. -/
  | sendClick
  /-- The speech-to-text request `id` settles. -/
  | sttSettle (id : Nat) (outcome : SttOutcome)

/-- Recorder `r` exists and can still fire events: it is recording, or it was
told to stop and its stop event is due. -/
def recorderLive (s : Page) (r : Nat) : Bool :=
  match s.recorders[r]? with
  | some RecorderState.recording => true
  | some RecorderState.stopping => true
  | _ => false

/-- The handler that runs for an event.  The result is `none` when the event
cannot occur in `s`: a disabled button receives no click, only a pending
request settles, only a live recorder fires events, and the send button
exists only once a recording is displayed.  This relation does not say in
which order a recorder fires its two events; `recorderOrder` does. -/
def step (s : Page) : Event → Option Page
  | .input text => some { s with textInput := text }
  | .speakClick => some (speakClick s)
  | .ttsSettle id outcome =>
    if id ∈ s.ttsPending then
      some (ttsSettled { s with ttsPending := s.ttsPending.erase id } outcome)
    else none
  | .startClick => if s.startDisabled then none else some (startClick s)
  | .micSettle granted =>
    if 0 < s.micRequests then
      some (micSettled { s with micRequests := s.micRequests - 1 } granted)
    else none
  | .stopClick => if s.stopDisabled then none else some (stopClick s)
  | .dataAvailable r data =>
    if recorderLive s r then some (ondataavailable s data) else none
  | .recorderStop r =>
    if recorderLive s r then
      some (onstop { s with recorders := s.recorders.set r RecorderState.inactive })
    else none
  | .sendClick => if s.audioContainer.isSome then some (sendClick s) else none
  | .sttSettle id outcome =>
    if id ∈ s.sttPending then
      some (sttSettled { s with sttPending := s.sttPending.erase id } outcome)
    else none

/-- A sequence of tasks, in order; `none` when one of them cannot occur. -/
def run (s : Page) : List Event → Option Page
  | [] => some s
  | e :: es => (step s e).bind fun s1 => run s1 es

/-- The event is a click on the send button. -/
def Event.isSend : Event → Bool
  | .sendClick => true
  | _ => false

/-- The event is the settling of a speech-to-text request. -/
def Event.isSttSettle : Event → Bool
  | .sttSettle _ _ => true
  | _ => false

/-- The event is the stop event of a recorder. -/
def Event.isRecorderStop : Event → Bool
  | .recorderStop _ => true
  | _ => false

/-- The fragments delivered by the data-available events of a trace, whatever
the recorder, in delivery order. -/
def delivered : List Event → List Blob
  | [] => []
  | .dataAvailable _ data :: es => data :: delivered es
  | _ :: es => delivered es

/-- The fragments delivered by recorder `r` in a trace, in delivery order. -/
def deliveredBy (r : Nat) : List Event → List Blob
  | [] => []
  | .dataAvailable r1 data :: es =>
    if r1 = r then data :: deliveredBy r es else deliveredBy r es
  | _ :: es => deliveredBy r es

/-! ## The order of a recorder's events

The script starts every recorder with `mediaRecorder.start()` (line 59), with
no time slice, and never calls `requestData()`.  Such a recorder gathers all
its data until it ends, and then fires `dataavailable` and `stop` one after
the other in one task.  So in a trace of the page a data-available event of a
recorder is followed at once by the stop event of the same recorder, and a
stop event always follows a data-available event. -/

/-- One step of the order check.  The state is the recorder, if any, that has
just delivered its fragment and whose stop event is due next. -/
def orderStep : Option Nat → Event → Option (Option Nat)
  | none, .dataAvailable r _ => some (some r)
  | none, .recorderStop _ => none
  | none, _ => some none
  | some r, .recorderStop r1 => if r = r1 then some none else none
  | some _, _ => none

/-- The order check over a trace, from the state `q`. -/
def orderRun (q : Option Nat) : List Event → Option (Option Nat)
  | [] => some q
  | e :: es => (orderStep q e).bind fun q1 => orderRun q1 es

/-- The trace has every recorder fire its two events in order: each
data-available event is followed at once by the stop event of the same
recorder, and no stop event comes otherwise. -/
def recorderOrder (trace : List Event) : Bool :=
  decide (orderRun none trace = some none)

/-- A run of the page in the browser: the handlers of `run`, over a trace in
which the recorders fire their events in order. -/
def browserRun (s : Page) (trace : List Event) : Option Page :=
  if recorderOrder trace then run s trace else none

/-- What holds of the page after the trace `pre`, when the order check is in
state `q`: between two tasks the buffer is empty; inside the task of a
recorder that ends, the buffer holds the fragments of that recorder, and there
is one at least; every other recorder that has delivered is inactive. -/
structure TraceInv (pre : List Event) (q : Option Nat) (s : Page) : Prop where
  idle : q = none → s.audioChunks = []
  due : ∀ r, q = some r →
    s.audioChunks = deliveredBy r pre ∧ deliveredBy r pre ≠ [] ∧ recorderLive s r = true
  done : ∀ r, q ≠ some r → deliveredBy r pre ≠ [] →
    s.recorders[r]? = some RecorderState.inactive

/-! ## Background animation (lines 178-192) -/

/-- The Euler angles `particles.rotation.x` and `particles.rotation.y`, over
any number type `α` (the script's numbers are IEEE doubles). -/
structure Rotation (α : Type) where
  x : α
  y : α

/-- Variable `normalSpeed`. -/
def normalSpeed {α : Type} [OfScientific α] : α := 0.0001

/-- Variable `fastSpeed`. -/
def fastSpeed {α : Type} [OfScientific α] : α := 0.0009

/-- Function `updateParticleSpeed`. -/
def updateParticleSpeed {α : Type} [Add α] (rotation : Rotation α) (speed : α) :
    Rotation α :=
  ⟨rotation.x + speed, rotation.y + speed⟩

/-- One frame of `animateBackground`: the rotation after the frame.  (The
frame also asks for the next frame and renders; neither writes a variable.) -/
def animateBackground {α : Type} [Add α] [OfScientific α] (s : Page)
    (rotation : Rotation α) : Rotation α :=
  updateParticleSpeed rotation (if s.isProcessing then fastSpeed else normalSpeed)

/-- The rotation after the frames of `flags`, where each entry is the value of
`isProcessing` when that frame runs. -/
def animateFrames {α : Type} [Add α] [OfScientific α] (rotation : Rotation α) :
    List Bool → Rotation α
  | [] => rotation
  | flag :: rest =>
    animateFrames (updateParticleSpeed rotation (if flag then fastSpeed else normalSpeed)) rest

/-! ## Particle field (lines 136-145) -/

/-- Constant `particleCount`. -/
def particleCount : Nat := 10000

/-- Function `THREE.MathUtils.randFloatSpread` with the draw `u` of
`Math.random()`: `range * (0.5 - u)`, each operation rounded by `fl`. -/
def randFloatSpread (fl : ℚ → ℚ) (range u : ℚ) : ℚ :=
  fl (range * fl (0.5 - u))

/-- Function `THREE.MathUtils.randFloat` with the draw `u` of `Math.random()`:
`low + u * (high - low)`, each operation rounded by `fl`. -/
def randFloat (fl : ℚ → ℚ) (low high u : ℚ) : ℚ :=
  fl (low + fl (u * fl (high - low)))

/-- The two typed arrays while the loop runs, with a record of the element
writes and of the number of `Math.random()` calls made. -/
structure Particles where
  positions : List ℚ
  sizes : List ℚ
  /-- Indices of `positions` written so far, in order. -/
  positionWrites : List Nat
  /-- Indices of `sizes` written so far, in order. -/
  sizeWrites : List Nat
  /-- Number of random draws consumed. -/
  draws : Nat

/-- Lines 137-138: `new Float32Array(count * 3)` and
`new Float32Array(count)`, filled with zeros. -/
def allocParticles (count : Nat) : Particles where
  positions := List.replicate (count * 3) 0
  sizes := List.replicate count 0
  positionWrites := []
  sizeWrites := []
  draws := 0

/-- An element store `positions[index] = value`; the value is rounded to
single precision by `fl32`. -/
def storePosition (fl32 : ℚ → ℚ) (p : Particles) (index : Nat) (value : ℚ) : Particles :=
  { p with
    positions := p.positions.set index (fl32 value)
    positionWrites := p.positionWrites ++ [index]
    draws := p.draws + 1 }

/-- An element store `sizes[index] = value`. -/
def storeSize (fl32 : ℚ → ℚ) (p : Particles) (index : Nat) (value : ℚ) : Particles :=
  { p with
    sizes := p.sizes.set index (fl32 value)
    sizeWrites := p.sizeWrites ++ [index]
    draws := p.draws + 1 }

/-- Body of the loop (lines 141-144) for index `i`.  `rand k` is the value of
the `k`-th call of `Math.random()`, `fl64` rounds to double precision. -/
def particleBody (fl64 fl32 : ℚ → ℚ) (rand : Nat → ℚ) (p : Particles) (i : Nat) :
    Particles :=
  let p1 := storePosition fl32 p (i * 3) (randFloatSpread fl64 2000 (rand p.draws))
  let p2 := storePosition fl32 p1 (i * 3 + 1) (randFloatSpread fl64 2000 (rand p1.draws))
  let p3 := storePosition fl32 p2 (i * 3 + 2) (randFloatSpread fl64 2000 (rand p2.draws))
  storeSize fl32 p3 i (randFloat fl64 1 5 (rand p3.draws))

/-- The loop `for (let i = 0; i < count; i++)` over freshly allocated arrays. -/
def particleLoop (fl64 fl32 : ℚ → ℚ) (rand : Nat → ℚ) (count : Nat) : Particles :=
  (List.range count).foldl (particleBody fl64 fl32 rand) (allocParticles count)

/-- The particle field the script builds at load time. -/
def initParticles (fl64 fl32 : ℚ → ℚ) (rand : Nat → ℚ) : Particles :=
  particleLoop fl64 fl32 rand particleCount

/-- What the proofs need of a rounding function: it is monotone, and exact on
the half-integers of magnitude at most 1000 (all of them are representable in
single and in double precision). -/
structure IsRounding (fl : ℚ → ℚ) : Prop where
  mono : Monotone fl
  exact : ∀ k : ℤ, |k| ≤ 2000 → fl (k / 2) = k / 2

/-- What holds of the arrays after `i` rounds of a loop over `count`
particles. -/
structure LoopInv (count i : Nat) (p : Particles) : Prop where
  posLen : p.positions.length = count * 3
  sizeLen : p.sizes.length = count
  posWrites : p.positionWrites = List.range (i * 3)
  sizeWrites : p.sizeWrites = List.range i
  draws : p.draws = i * 4
  posBound : ∀ x ∈ p.positions, -1000 ≤ x ∧ x ≤ 1000
  sizeBound : ∀ j, j < i → ∀ x, p.sizes[j]? = some x → 1 ≤ x ∧ x ≤ 5

/-! ## Facts about the speech-to-text chain -/

theorem sttData_sttPending (s s1 : Page) (data : JsVal) (h : sttData s data = .ok s1) :
    s1.sttPending = s.sttPending ∧ s1.requests = s.requests := by
  unfold sttData at h
  cases h1 : data.getProp "transcription" with
  | error e => simp [h1, bind, Except.bind] at h
  | ok tr =>
    cases h2 : data.getProp "error" with
    | error e =>
      by_cases ht : tr.toBoolean = true
      · simp [h1, ht, bind, Except.bind, pure, Except.pure, scrollToOutput] at h
        subst h; exact ⟨rfl, rfl⟩
      · simp [h1, h2, ht, bind, Except.bind] at h
    | ok er =>
      by_cases ht : tr.toBoolean = true
      · simp [h1, ht, bind, Except.bind, pure, Except.pure, scrollToOutput] at h
        subst h; exact ⟨rfl, rfl⟩
      · by_cases he : er.toBoolean = true
        · simp [h1, h2, ht, he, bind, Except.bind, pure, Except.pure, scrollToOutput] at h
          subst h; exact ⟨rfl, rfl⟩
        · simp [h1, h2, ht, he, bind, Except.bind, pure, Except.pure, scrollToOutput] at h
          subst h; exact ⟨rfl, rfl⟩

theorem sttSettled_isProcessing (s : Page) (outcome : SttOutcome) :
    (sttSettled s outcome).isProcessing = false := by
  cases outcome with
  | rejected => rfl
  | notJson => rfl
  | json data =>
    simp only [sttSettled]
    cases sttData s data <;> rfl

theorem sttSettled_sttPending (s : Page) (outcome : SttOutcome) :
    (sttSettled s outcome).sttPending = s.sttPending := by
  cases outcome with
  | rejected => rfl
  | notJson => rfl
  | json data =>
    simp only [sttSettled]
    cases h : sttData s data with
    | error e => rfl
    | ok s1 => exact (sttData_sttPending s s1 data h).1

/-- The output field after a body whose `transcription` is a non-empty string. -/
theorem sttSettled_transcription (s : Page) (props : List (String × JsVal)) (t : String)
    (hp : props.lookup "transcription" = some (.str t)) (ht : t ≠ "") :
    (sttSettled s (.json (.obj props))).textOutput = t ∧
    (sttSettled s (.json (.obj props))).scrolls = s.scrolls + 1 := by
  have hb : (JsVal.str t).toBoolean = true := by simp [JsVal.toBoolean, ht]
  have hs : (JsVal.str t).toStr = t := rfl
  simp only [sttSettled, sttData, JsVal.getProp, bind, Except.bind, pure, Except.pure, hp,
    Option.getD_some, hb, hs, if_true, scrollToOutput, sttFinally, and_self]

/-- The output field after a body without a truthy `transcription` whose
`error` is a non-empty string. -/
theorem sttSettled_error (s : Page) (props : List (String × JsVal)) (e : String)
    (hp : ((props.lookup "transcription").getD .undefined).toBoolean = false)
    (he : props.lookup "error" = some (.str e)) (hne : e ≠ "") :
    (sttSettled s (.json (.obj props))).textOutput = "Error: " ++ e ∧
    (sttSettled s (.json (.obj props))).scrolls = s.scrolls + 1 := by
  have hb : (JsVal.str e).toBoolean = true := by simp [JsVal.toBoolean, hne]
  have hs : (JsVal.str e).toStr = e := rfl
  simp only [sttSettled, sttData, JsVal.getProp, bind, Except.bind, pure, Except.pure, hp, he,
    Option.getD_some, hb, hs, if_true, Bool.false_eq_true, if_false, scrollToOutput, sttFinally,
    and_self]

/-- The output field after a body in which neither field is truthy. -/
theorem sttSettled_unknown (s : Page) (props : List (String × JsVal))
    (hp : ((props.lookup "transcription").getD .undefined).toBoolean = false)
    (he : ((props.lookup "error").getD .undefined).toBoolean = false) :
    (sttSettled s (.json (.obj props))).textOutput = "An unknown error occurred" ∧
    (sttSettled s (.json (.obj props))).scrolls = s.scrolls + 1 := by
  simp only [sttSettled, sttData, JsVal.getProp, bind, Except.bind, pure, Except.pure, hp, he,
    Bool.false_eq_true, if_false, scrollToOutput, sttFinally, and_self]

/-- Only a send click and the settling of a speech-to-text request write
`isProcessing` or the set of outstanding speech-to-text requests. -/
theorem step_keeps_processing (s s1 : Page) (e : Event) (h : step s e = some s1)
    (hsend : e.isSend = false) (hsettle : e.isSttSettle = false) :
    s1.isProcessing = s.isProcessing ∧ s1.sttPending = s.sttPending := by
  cases e with
  | input text => simp [step] at h; subst h; exact ⟨rfl, rfl⟩
  | speakClick =>
    simp [step, speakClick] at h; subst h
    split <;> exact ⟨rfl, rfl⟩
  | ttsSettle id outcome =>
    simp [step] at h
    obtain ⟨_, h⟩ := h
    subst h
    cases outcome <;> exact ⟨rfl, rfl⟩
  | startClick =>
    simp [step, startClick] at h
    obtain ⟨_, h⟩ := h
    subst h; exact ⟨rfl, rfl⟩
  | micSettle granted =>
    simp [step, micSettled] at h
    obtain ⟨_, h⟩ := h
    subst h
    split <;> exact ⟨rfl, rfl⟩
  | stopClick =>
    simp [step, stopClick] at h
    obtain ⟨_, h⟩ := h
    subst h
    split
    · exact ⟨rfl, rfl⟩
    · split <;> exact ⟨rfl, rfl⟩
  | dataAvailable r data =>
    simp [step, ondataavailable] at h
    obtain ⟨_, h⟩ := h
    subst h; exact ⟨rfl, rfl⟩
  | recorderStop r =>
    simp [step, onstop, displayRecordedAudio] at h
    obtain ⟨_, h⟩ := h
    subst h; exact ⟨rfl, rfl⟩
  | sendClick => simp [Event.isSend] at hsend
  | sttSettle id outcome => simp [Event.isSttSettle] at hsettle

/-- The same over a sequence of tasks. -/
theorem run_keeps_processing (evs : List Event) :
    ∀ (s s1 : Page), run s evs = some s1 →
      (∀ e ∈ evs, e.isSend = false ∧ e.isSttSettle = false) →
      s1.isProcessing = s.isProcessing ∧ s1.sttPending = s.sttPending := by
  induction evs with
  | nil =>
    intro s s1 h _
    simp [run] at h; subst h; exact ⟨rfl, rfl⟩
  | cons e es ih =>
    intro s s1 h hev
    simp only [run] at h
    cases hs : step s e with
    | none => simp [hs] at h
    | some s2 =>
      simp [hs] at h
      have h1 := step_keeps_processing s s2 e hs (hev e (by simp)).1 (hev e (by simp)).2
      have h2 := ih s2 s1 h (fun e1 he1 => hev e1 (by simp [he1]))
      exact ⟨h2.1.trans h1.1, h2.2.trans h1.2⟩

/-! ## Facts about the recording handlers -/

/-- The speech-to-text chain leaves the recording variables alone. -/
theorem sttSettled_recording (s : Page) (outcome : SttOutcome) :
    (sttSettled s outcome).audioChunks = s.audioChunks ∧
    (sttSettled s outcome).audioBlob = s.audioBlob ∧
    (sttSettled s outcome).audioUrl = s.audioUrl ∧
    (sttSettled s outcome).audioContainer = s.audioContainer ∧
    (sttSettled s outcome).recorders = s.recorders := by
  cases outcome with
  | rejected => exact ⟨rfl, rfl, rfl, rfl, rfl⟩
  | notJson => exact ⟨rfl, rfl, rfl, rfl, rfl⟩
  | json data =>
    simp only [sttSettled]
    cases h : sttData s data with
    | error e => exact ⟨rfl, rfl, rfl, rfl, rfl⟩
    | ok s1 =>
      unfold sttData at h
      cases h1 : data.getProp "transcription" with
      | error e => simp [h1, bind, Except.bind] at h
      | ok tr =>
        by_cases ht : tr.toBoolean = true
        · simp [h1, ht, bind, Except.bind, pure, Except.pure, scrollToOutput] at h
          subst h; exact ⟨rfl, rfl, rfl, rfl, rfl⟩
        · cases h2 : data.getProp "error" with
          | error e => simp [h1, h2, ht, bind, Except.bind] at h
          | ok er =>
            by_cases he : er.toBoolean = true
            · simp [h1, h2, ht, he, bind, Except.bind, pure, Except.pure, scrollToOutput] at h
              subst h; exact ⟨rfl, rfl, rfl, rfl, rfl⟩
            · simp [h1, h2, ht, he, bind, Except.bind, pure, Except.pure, scrollToOutput] at h
              subst h; exact ⟨rfl, rfl, rfl, rfl, rfl⟩

/-- No task other than a recorder's stop event writes the finalized blob, its
URL or the playback widget, and none other than a stop or data-available
event writes the fragment buffer. -/
theorem step_keeps_recording (s s1 : Page) (e : Event) (h : step s e = some s1)
    (hstop : e.isRecorderStop = false) :
    s1.audioBlob = s.audioBlob ∧ s1.audioUrl = s.audioUrl ∧
    s1.audioContainer = s.audioContainer ∧
    s1.audioChunks = s.audioChunks ++ delivered [e] := by
  cases e with
  | input text => simp [step] at h; subst h; simp [delivered]
  | speakClick =>
    simp [step, speakClick] at h; subst h
    split <;> simp [delivered]
  | ttsSettle id outcome =>
    simp [step] at h
    obtain ⟨_, h⟩ := h
    subst h
    cases outcome <;> simp [delivered, ttsSettled]
  | startClick =>
    simp [step, startClick] at h
    obtain ⟨_, h⟩ := h
    subst h; simp [delivered]
  | micSettle granted =>
    simp [step, micSettled] at h
    obtain ⟨_, h⟩ := h
    subst h
    split <;> simp [delivered]
  | stopClick =>
    simp [step, stopClick] at h
    obtain ⟨_, h⟩ := h
    subst h
    split
    · simp [delivered]
    · split <;> simp [delivered]
  | dataAvailable r data =>
    simp [step, ondataavailable] at h
    obtain ⟨_, h⟩ := h
    subst h; simp [delivered]
  | recorderStop r => simp [Event.isRecorderStop] at hstop
  | sendClick =>
    simp [step, sendClick] at h
    obtain ⟨_, h⟩ := h
    subst h
    split <;> simp [delivered, sendAudioToServer]
  | sttSettle id outcome =>
    simp [step] at h
    obtain ⟨_, h⟩ := h
    subst h
    have hr := sttSettled_recording
      { s with sttPending := s.sttPending.erase id } outcome
    simp [delivered, hr.1, hr.2.1, hr.2.2.1, hr.2.2.2.1]

/-- A recorder that has become inactive stays inactive. -/
theorem step_keeps_inactive (s s1 : Page) (e : Event) (r : Nat) (h : step s e = some s1)
    (hr : s.recorders[r]? = some RecorderState.inactive) :
    s1.recorders[r]? = some RecorderState.inactive := by
  have hlt : r < s.recorders.length := by
    by_contra hc
    rw [List.getElem?_eq_none (by omega)] at hr
    exact absurd hr (by simp)
  cases e with
  | input text => simp [step] at h; subst h; exact hr
  | speakClick =>
    simp [step, speakClick] at h; subst h
    split <;> exact hr
  | ttsSettle id outcome =>
    simp [step] at h
    obtain ⟨_, h⟩ := h
    subst h
    cases outcome <;> exact hr
  | startClick =>
    simp [step, startClick] at h
    obtain ⟨_, h⟩ := h
    subst h; exact hr
  | micSettle granted =>
    simp [step, micSettled] at h
    obtain ⟨_, h⟩ := h
    subst h
    split
    · simp [List.getElem?_append_left hlt, hr]
    · exact hr
  | stopClick =>
    simp [step, stopClick] at h
    obtain ⟨_, h⟩ := h
    subst h
    split
    · exact hr
    · rename_i m hm
      split
      · rename_i hrec
        have hne : m ≠ r := by
          intro hmr
          rw [hmr, hr] at hrec
          exact absurd hrec (by simp)
        simp [List.getElem?_set_ne hne, hr]
      · exact hr
  | dataAvailable r1 data =>
    simp [step, ondataavailable] at h
    obtain ⟨_, h⟩ := h
    subst h; exact hr
  | recorderStop r1 =>
    simp [step, onstop, displayRecordedAudio] at h
    obtain ⟨_, h⟩ := h
    subst h
    by_cases hne : r1 = r
    · subst hne
      simp [List.getElem?_set_self hlt]
    · simp [List.getElem?_set_ne hne, hr]
  | sendClick =>
    simp [step, sendClick] at h
    obtain ⟨_, h⟩ := h
    subst h
    split <;> exact hr
  | sttSettle id outcome =>
    simp [step] at h
    obtain ⟨_, h⟩ := h
    subst h
    rw [(sttSettled_recording _ outcome).2.2.2.2]
    exact hr

/-- A run over two traces in a row. -/
theorem run_append (a b : List Event) :
    ∀ s : Page, run s (a ++ b) = (run s a).bind fun s1 => run s1 b := by
  induction a with
  | nil => intro s; rfl
  | cons e es ih =>
    intro s
    simp only [List.cons_append, run]
    cases step s e with
    | none => rfl
    | some s1 => simpa using ih s1

/-- The order check over two traces in a row. -/
theorem orderRun_append (a b : List Event) :
    ∀ q : Option Nat, orderRun q (a ++ b) = (orderRun q a).bind fun q1 => orderRun q1 b := by
  induction a with
  | nil => intro q; rfl
  | cons e es ih =>
    intro q
    simp only [List.cons_append, orderRun]
    cases orderStep q e with
    | none => rfl
    | some q1 => simpa using ih q1

/-- The fragments of a recorder over two traces in a row. -/
theorem deliveredBy_append (r : Nat) (a b : List Event) :
    deliveredBy r (a ++ b) = deliveredBy r a ++ deliveredBy r b := by
  induction a with
  | nil => rfl
  | cons e es ih =>
    cases e with
    | dataAvailable r1 d =>
      by_cases h : r1 = r <;> simp [deliveredBy, h, ih]
    | _ => simpa [deliveredBy] using ih

/-- A live recorder has been created. -/
theorem recorderLive_lt (s : Page) (r : Nat) (h : recorderLive s r = true) :
    r < s.recorders.length := by
  by_contra hc
  simp [recorderLive, List.getElem?_eq_none (show s.recorders.length ≤ r by omega)] at h

/-- An inactive recorder is not live. -/
theorem recorderLive_inactive (s : Page) (r : Nat)
    (h : s.recorders[r]? = some RecorderState.inactive) : recorderLive s r = false := by
  simp [recorderLive, h]

/-- The invariant over a task that is neither event of a recorder. -/
theorem traceInv_other (pre : List Event) (s s1 : Page) (e : Event)
    (inv : TraceInv pre none s) (hs : step s e = some s1)
    (hstop : e.isRecorderStop = false) (hby : ∀ r, deliveredBy r [e] = [])
    (hd : delivered [e] = []) : TraceInv (pre ++ [e]) none s1 where
  idle := by
    intro _
    rw [(step_keeps_recording s s1 e hs hstop).2.2.2, hd, inv.idle rfl]
    rfl
  due := by
    intro r h
    exact absurd h (by simp)
  done := by
    intro r _ hdel
    rw [deliveredBy_append, hby, List.append_nil] at hdel
    exact step_keeps_inactive s s1 e r hs (inv.done r (by simp) hdel)

/-- The invariant is kept by every event the order check lets through. -/
theorem traceInv_step (pre : List Event) (q q1 : Option Nat) (s s1 : Page) (e : Event)
    (inv : TraceInv pre q s) (ho : orderStep q e = some q1) (hs : step s e = some s1) :
    TraceInv (pre ++ [e]) q1 s1 := by
  cases q with
  | none =>
    cases e with
    | dataAvailable r d =>
      simp only [orderStep, Option.some.injEq] at ho
      subst ho
      simp only [step] at hs
      by_cases hlive : recorderLive s r = true
      · simp only [hlive, if_true, Option.some.injEq] at hs
        subst hs
        have hnone : deliveredBy r pre = [] := by
          by_contra hc
          have := recorderLive_inactive s r (inv.done r (by simp) hc)
          rw [hlive] at this
          exact absurd this (by simp)
        refine ⟨fun h => absurd h (by simp), ?_, ?_⟩
        · intro r1 h1
          simp only [Option.some.injEq] at h1
          subst h1
          refine ⟨?_, ?_, hlive⟩
          · simp [ondataavailable, inv.idle rfl, deliveredBy_append, hnone, deliveredBy]
          · simp [deliveredBy_append, deliveredBy]
        · intro r1 hne hdel
          have hr : r ≠ r1 := fun h => hne (by rw [h])
          simp only [deliveredBy_append, deliveredBy, hr, if_false, List.append_nil] at hdel
          exact inv.done r1 (by simp) hdel
      · simp [hlive] at hs
    | recorderStop r => simp [orderStep] at ho
    | input text =>
      simp only [orderStep, Option.some.injEq] at ho
      subst ho
      exact traceInv_other pre s s1 _ inv hs rfl (fun _ => rfl) rfl
    | speakClick =>
      simp only [orderStep, Option.some.injEq] at ho
      subst ho
      exact traceInv_other pre s s1 _ inv hs rfl (fun _ => rfl) rfl
    | ttsSettle id outcome =>
      simp only [orderStep, Option.some.injEq] at ho
      subst ho
      exact traceInv_other pre s s1 _ inv hs rfl (fun _ => rfl) rfl
    | startClick =>
      simp only [orderStep, Option.some.injEq] at ho
      subst ho
      exact traceInv_other pre s s1 _ inv hs rfl (fun _ => rfl) rfl
    | micSettle granted =>
      simp only [orderStep, Option.some.injEq] at ho
      subst ho
      exact traceInv_other pre s s1 _ inv hs rfl (fun _ => rfl) rfl
    | stopClick =>
      simp only [orderStep, Option.some.injEq] at ho
      subst ho
      exact traceInv_other pre s s1 _ inv hs rfl (fun _ => rfl) rfl
    | sendClick =>
      simp only [orderStep, Option.some.injEq] at ho
      subst ho
      exact traceInv_other pre s s1 _ inv hs rfl (fun _ => rfl) rfl
    | sttSettle id outcome =>
      simp only [orderStep, Option.some.injEq] at ho
      subst ho
      exact traceInv_other pre s s1 _ inv hs rfl (fun _ => rfl) rfl
  | some r =>
    cases e with
    | recorderStop r1 =>
      simp only [orderStep] at ho
      by_cases hr : r = r1
      · subst hr
        simp only [if_true, Option.some.injEq] at ho
        subst ho
        have hlive := (inv.due r rfl).2.2
        simp only [step, hlive, if_true, Option.some.injEq] at hs
        subst hs
        refine ⟨fun _ => rfl, fun r1 h => absurd h (by simp), ?_⟩
        intro r1 _ hdel
        simp only [deliveredBy_append, deliveredBy, List.append_nil] at hdel
        by_cases hrr : r = r1
        · subst hrr
          simp [onstop, displayRecordedAudio, List.getElem?_set_self (recorderLive_lt s r hlive)]
        · have hin := inv.done r1 (fun h => hrr (by simpa using h)) hdel
          simp [onstop, displayRecordedAudio, List.getElem?_set_ne hrr, hin]
      · simp [hr] at ho
    | _ => simp [orderStep] at ho

/-- The invariant holds along every trace that starts with an empty buffer. -/
theorem traceInv_run (s0 : Page) (h0 : s0.audioChunks = []) (pre : List Event) :
    ∀ (q : Option Nat) (s : Page), orderRun none pre = some q → run s0 pre = some s →
      TraceInv pre q s := by
  induction pre using List.reverseRecOn with
  | nil =>
    intro q s ho hs
    simp only [orderRun, Option.some.injEq] at ho
    simp only [run, Option.some.injEq] at hs
    subst ho; subst hs
    exact ⟨fun _ => h0, fun r h => absurd h (by simp), fun r _ h => absurd rfl h⟩
  | append_singleton l e ih =>
    intro q s ho hs
    rw [orderRun_append] at ho
    rw [run_append] at hs
    cases hq : orderRun none l with
    | none => simp [hq] at ho
    | some q0 =>
      cases hl : run s0 l with
      | none => simp [hl] at hs
      | some sl =>
        simp only [hq, Option.some_bind, orderRun] at ho
        simp only [hl, Option.some_bind, run] at hs
        cases hoe : orderStep q0 e with
        | none => simp [hoe] at ho
        | some q1 =>
          cases hse : step sl e with
          | none => simp [hse] at hs
          | some s2 =>
            simp only [hoe, Option.some_bind, Option.some.injEq] at ho
            simp only [hse, Option.some_bind, Option.some.injEq] at hs
            subst ho; subst hs
            exact traceInv_step l q0 q1 sl s2 e (ih q0 sl hq hl) hoe hse

/-- A run in the browser, cut before one of its events. -/
theorem browserRun_split (s0 s3 : Page) (pre post : List Event) (e : Event)
    (h : browserRun s0 (pre ++ e :: post) = some s3) :
    ∃ q q1 s1 s2, orderRun none pre = some q ∧ orderStep q e = some q1 ∧
      run s0 pre = some s1 ∧ step s1 e = some s2 := by
  unfold browserRun at h
  by_cases ho : recorderOrder (pre ++ e :: post) = true
  · simp only [ho, if_true] at h
    simp only [recorderOrder, decide_eq_true_eq] at ho
    rw [orderRun_append] at ho
    rw [run_append] at h
    cases hq : orderRun none pre with
    | none => simp [hq] at ho
    | some q =>
      cases hl : run s0 pre with
      | none => simp [hl] at h
      | some s1 =>
        simp only [hq, Option.some_bind, orderRun] at ho
        simp only [hl, Option.some_bind, run] at h
        cases hoe : orderStep q e with
        | none => simp [hoe] at ho
        | some q1 =>
          cases hse : step s1 e with
          | none => simp [hse] at h
          | some s2 => exact ⟨q, q1, s1, s2, rfl, hoe, rfl, hse⟩
  · simp [ho] at h

/-- Two start clicks before the first microphone request settles give two
recorders that record at once. -/
theorem startClick_twice_two_recorders :
    (browserRun (Page.loaded "localhost")
        [.startClick, .startClick, .micSettle true, .micSettle true]).map
      (fun s => (s.recorders, s.mediaRecorder, s.startDisabled)) =
    some ([RecorderState.recording, RecorderState.recording], some 1, true) := by
  decide

/-- The size of a blob built from parts is the sum of the parts' sizes. -/
theorem Blob.size_ofParts (parts : List Blob) (type : String) :
    (Blob.ofParts parts type).size = (parts.map Blob.size).sum := by
  simp only [Blob.ofParts, Blob.size, List.length_flatten, List.map_map]
  rfl

/-! ## Facts about the particle loop -/

/-- A rounding function fixes the half-integers of magnitude at most 1000. -/
theorem IsRounding.fix {fl : ℚ → ℚ} (h : IsRounding fl) (q : ℚ) (k : ℤ)
    (hk : |k| ≤ 2000) (hq : q = k / 2) : fl q = q := by
  rw [hq]; exact h.exact k hk

/-- Rounding keeps a value inside an interval whose ends it fixes. -/
theorem IsRounding.between {fl : ℚ → ℚ} (h : IsRounding fl) (a b x : ℚ)
    (ha : fl a = a) (hb : fl b = b) (hx : a ≤ x ∧ x ≤ b) : a ≤ fl x ∧ fl x ≤ b := by
  constructor
  · have := h.mono hx.1
    rwa [ha] at this
  · have := h.mono hx.2
    rwa [hb] at this

/-- A stored coordinate lies in [-1000, 1000]. -/
theorem randFloatSpread_bound {fl64 fl32 : ℚ → ℚ} (h64 : IsRounding fl64)
    (h32 : IsRounding fl32) (u : ℚ) (h0 : 0 ≤ u) (h1 : u < 1) :
    -1000 ≤ fl32 (randFloatSpread fl64 2000 u) ∧ fl32 (randFloatSpread fl64 2000 u) ≤ 1000 := by
  have hhalf : -(1 / 2 : ℚ) ≤ fl64 (0.5 - u) ∧ fl64 (0.5 - u) ≤ 1 / 2 :=
    h64.between _ _ _ (h64.fix _ (-1) (by decide) (by norm_num))
      (h64.fix _ 1 (by decide) (by norm_num))
      ⟨by norm_num; linarith, by norm_num; linarith⟩
  have hprod : (-1000 : ℚ) ≤ 2000 * fl64 (0.5 - u) ∧ 2000 * fl64 (0.5 - u) ≤ 1000 :=
    ⟨by linarith [hhalf.1], by linarith [hhalf.2]⟩
  have h2 : (-1000 : ℚ) ≤ randFloatSpread fl64 2000 u ∧ randFloatSpread fl64 2000 u ≤ 1000 :=
    h64.between _ _ _ (h64.fix _ (-2000) (by decide) (by norm_num))
      (h64.fix _ 2000 (by decide) (by norm_num)) hprod
  exact h32.between _ _ _ (h32.fix _ (-2000) (by decide) (by norm_num))
    (h32.fix _ 2000 (by decide) (by norm_num)) h2

/-- A stored size lies in [1, 5]. -/
theorem randFloat_bound {fl64 fl32 : ℚ → ℚ} (h64 : IsRounding fl64)
    (h32 : IsRounding fl32) (u : ℚ) (h0 : 0 ≤ u) (h1 : u < 1) :
    1 ≤ fl32 (randFloat fl64 1 5 u) ∧ fl32 (randFloat fl64 1 5 u) ≤ 5 := by
  have hdiff : fl64 (5 - 1) = 4 := by
    have := h64.fix 4 8 (by decide) (by norm_num)
    norm_num
    exact this
  have hmul : (0 : ℚ) ≤ fl64 (u * fl64 (5 - 1)) ∧ fl64 (u * fl64 (5 - 1)) ≤ 4 := by
    rw [hdiff]
    exact h64.between _ _ _ (h64.fix _ 0 (by decide) (by norm_num))
      (h64.fix _ 8 (by decide) (by norm_num)) ⟨by linarith, by linarith⟩
  have h2 : (1 : ℚ) ≤ randFloat fl64 1 5 u ∧ randFloat fl64 1 5 u ≤ 5 :=
    h64.between _ _ _ (h64.fix _ 2 (by decide) (by norm_num))
      (h64.fix _ 10 (by decide) (by norm_num)) ⟨by linarith [hmul.1], by linarith [hmul.2]⟩
  exact h32.between _ _ _ (h32.fix _ 2 (by decide) (by norm_num))
    (h32.fix _ 10 (by decide) (by norm_num)) h2

theorem loopInv_alloc (count : Nat) : LoopInv count 0 (allocParticles count) where
  posLen := by simp [allocParticles]
  sizeLen := by simp [allocParticles]
  posWrites := rfl
  sizeWrites := rfl
  draws := rfl
  posBound := by
    intro x hx
    have : x = 0 := by
      simp only [allocParticles] at hx
      exact List.eq_of_mem_replicate hx
    subst this
    constructor <;> norm_num
  sizeBound := by
    intro j hj
    exact absurd hj (Nat.not_lt_zero j)

theorem loopInv_body {fl64 fl32 : ℚ → ℚ} (h64 : IsRounding fl64) (h32 : IsRounding fl32)
    (rand : Nat → ℚ) (hrand : ∀ k, 0 ≤ rand k ∧ rand k < 1) (count i : Nat)
    (p : Particles) (h : LoopInv count i p) :
    LoopInv count (i + 1) (particleBody fl64 fl32 rand p i) where
  posLen := by simp [particleBody, storePosition, storeSize, h.posLen]
  sizeLen := by simp [particleBody, storePosition, storeSize, h.sizeLen]
  posWrites := by
    have e : (i + 1) * 3 = i * 3 + 1 + 1 + 1 := by ring
    simp [particleBody, storePosition, storeSize, h.posWrites, e, List.range_succ]
  sizeWrites := by
    simp [particleBody, storePosition, storeSize, h.sizeWrites, List.range_succ]
  draws := by
    simp [particleBody, storePosition, storeSize, h.draws]
    ring
  posBound := by
    intro x hx
    simp only [particleBody, storePosition, storeSize] at hx
    rcases List.mem_or_eq_of_mem_set hx with hx | hx
    · rcases List.mem_or_eq_of_mem_set hx with hx | hx
      · rcases List.mem_or_eq_of_mem_set hx with hx | hx
        · exact h.posBound x hx
        · rw [hx]; exact randFloatSpread_bound h64 h32 _ (hrand _).1 (hrand _).2
      · rw [hx]; exact randFloatSpread_bound h64 h32 _ (hrand _).1 (hrand _).2
    · rw [hx]; exact randFloatSpread_bound h64 h32 _ (hrand _).1 (hrand _).2
  sizeBound := by
    intro j hj x hx
    simp only [particleBody, storePosition, storeSize] at hx
    by_cases hji : i = j
    · subst hji
      by_cases hlt : i < p.sizes.length
      · rw [List.getElem?_set_self hlt] at hx
        cases hx
        exact randFloat_bound h64 h32 _ (hrand _).1 (hrand _).2
      · rw [List.getElem?_eq_none (by simp; omega)] at hx
        exact absurd hx (by simp)
    · rw [List.getElem?_set_ne hji] at hx
      exact h.sizeBound j (by omega) x hx

theorem loopInv_loop {fl64 fl32 : ℚ → ℚ} (h64 : IsRounding fl64) (h32 : IsRounding fl32)
    (rand : Nat → ℚ) (hrand : ∀ k, 0 ≤ rand k ∧ rand k < 1) (count : Nat) :
    ∀ i, LoopInv count i
      ((List.range i).foldl (particleBody fl64 fl32 rand) (allocParticles count)) := by
  intro i
  induction i with
  | zero => exact loopInv_alloc count
  | succ i ih =>
    rw [List.range_succ, List.foldl_append]
    exact loopInv_body h64 h32 rand hrand count i _ ih

/-! ## The claims -/

/-- C1: a single call of `sendAudioToServer` with no other send outstanding
sets `isProcessing` to true; the flag stays true over every sequence of other
tasks until the request settles; the request does settle for every outcome,
and then the flag is false, nothing is outstanding, and the output field is
the transcription `t` for a body `{transcription: t}` with `t` non-empty,
`"Error: " ++ e` for a body `{error: e}` with `e` non-empty,
`"An unknown error occurred"` for the body `{}`, and
`"Error processing audio"` when the request is rejected or the body is not
JSON. -/
theorem C1_single_send (s : Page) (audioBlob : Blob) (hidle : s.sttPending = []) :
    (sendAudioToServer s audioBlob).isProcessing = true ∧
    (sendAudioToServer s audioBlob).sttPending = [s.requests.length] ∧
    ∀ (evs : List Event) (s2 : Page),
      (∀ e ∈ evs, e.isSend = false ∧ e.isSttSettle = false) →
      run (sendAudioToServer s audioBlob) evs = some s2 →
      s2.isProcessing = true ∧
      ∀ outcome : SttOutcome,
        ∃ s3, step s2 (.sttSettle s.requests.length outcome) = some s3 ∧
          s3.isProcessing = false ∧ s3.sttPending = [] ∧
          (∀ t : String, t ≠ "" →
            outcome = .json (.obj [("transcription", .str t)]) → s3.textOutput = t) ∧
          (∀ e : String, e ≠ "" →
            outcome = .json (.obj [("error", .str e)]) → s3.textOutput = "Error: " ++ e) ∧
          (outcome = .json (.obj []) → s3.textOutput = "An unknown error occurred") ∧
          (outcome = .rejected ∨ outcome = .notJson →
            s3.textOutput = "Error processing audio") := by
  refine ⟨rfl, by simp [sendAudioToServer, hidle], ?_⟩
  intro evs s2 hev hrun
  have hk := run_keeps_processing evs _ s2 hrun hev
  have hp : s2.sttPending = [s.requests.length] := by
    rw [hk.2]; simp [sendAudioToServer, hidle]
  refine ⟨hk.1.trans rfl, ?_⟩
  intro outcome
  refine ⟨sttSettled { s2 with sttPending := s2.sttPending.erase s.requests.length } outcome,
    by simp [step, hp], sttSettled_isProcessing _ _, ?_, ?_, ?_, ?_, ?_⟩
  · rw [sttSettled_sttPending]; simp [hp]
  · intro t ht ho
    subst ho
    exact (sttSettled_transcription _ _ t (by simp [List.lookup]) ht).1
  · intro e he ho
    subst ho
    exact (sttSettled_error _ _ e (by simp [List.lookup, JsVal.toBoolean])
      (by simp [List.lookup]) he).1
  · intro ho
    subst ho
    exact (sttSettled_unknown _ _ (by simp [List.lookup, JsVal.toBoolean])
      (by simp [List.lookup, JsVal.toBoolean])).1
  · intro ho
    rcases ho with ho | ho <;> subst ho <;> rfl

/-- Witness of C1: a send from the freshly loaded page, with the transcription
`"hello"`. -/
theorem C1_single_send_witness :
    (Page.loaded "localhost").sttPending = [] ∧
    (sendAudioToServer (Page.loaded "localhost") ⟨[82, 73], "audio/wav"⟩).isProcessing = true ∧
    ∃ s3, step (sendAudioToServer (Page.loaded "localhost") ⟨[82, 73], "audio/wav"⟩)
        (.sttSettle 0 (.json (.obj [("transcription", .str "hello")]))) = some s3 ∧
      s3.isProcessing = false ∧ s3.textOutput = "hello" := by
  have h := C1_single_send (Page.loaded "localhost") ⟨[82, 73], "audio/wav"⟩ rfl
  refine ⟨rfl, h.1, ?_⟩
  obtain ⟨s3, h3, hf, _, ht, _⟩ :=
    (h.2.2 [] _ (by simp) rfl).2 (.json (.obj [("transcription", .str "hello")]))
  exact ⟨s3, h3, hf, ht "hello" (by decide) rfl⟩

/-- C2: a click on the speak button with a non-empty text `t` issues exactly
one request, a POST to `/tts` on port 3000 whose body is the JSON encoding of
the object with the single field `text` equal to `t`, unchanged; with the
empty text the click changes nothing: no request is issued and no alert is
shown. -/
theorem C2_speak_click (s : Page) :
    (s.textInput ≠ "" →
      (speakClick s).requests = s.requests ++ [ttsRequest s.hostname s.textInput] ∧
      (ttsRequest s.hostname s.textInput).method = "POST" ∧
      (ttsRequest s.hostname s.textInput).url = "https://" ++ s.hostname ++ ":3000/tts" ∧
      (ttsRequest s.hostname s.textInput).body =
        .json (.obj [("text", .str s.textInput)]) ∧
      (speakClick s).alerts = s.alerts) ∧
    (s.textInput = "" → speakClick s = s) := by
  constructor
  · intro h
    simp [speakClick, h, ttsRequest]
  · intro h
    simp [speakClick, h]

/-- Witness of C2: the whitespace-only text `"  "` is sent as it is. -/
theorem C2_speak_click_witness :
    ({ Page.loaded "localhost" with textInput := "  " } : Page).textInput ≠ "" ∧
    (speakClick { Page.loaded "localhost" with textInput := "  " }).requests.length = 1 ∧
    (speakClick (Page.loaded "localhost")).requests.length = 0 := by
  have h := C2_speak_click { Page.loaded "localhost" with textInput := "  " }
  have h0 := (C2_speak_click (Page.loaded "localhost")).2 rfl
  refine ⟨by decide, ?_, ?_⟩
  · rw [(h.1 (by decide)).1]; rfl
  · rw [h0]; rfl

/-- C3: once the microphone request of a start click succeeds, start is
disabled, stop is enabled and the recorder is recording; a stop click while
the recorder is recording ends with start enabled, stop disabled and the
recorder no longer recording; a stop click with no recorder, or with a
recorder that is not recording, leaves the whole page unchanged (button
flags, status text, recorder and fragment buffer included). -/
theorem C3_recording_controls (s : Page) :
    (s.startDisabled = false →
      ∃ s1 s2, step s .startClick = some s1 ∧ step s1 (.micSettle true) = some s2 ∧
        s2.startDisabled = true ∧ s2.stopDisabled = false ∧ isRecording s2 = true) ∧
    ((micSettled s true).startDisabled = true ∧ (micSettled s true).stopDisabled = false ∧
      isRecording (micSettled s true) = true) ∧
    (isRecording s = true →
      (stopClick s).startDisabled = false ∧ (stopClick s).stopDisabled = true ∧
      isRecording (stopClick s) = false) ∧
    (isRecording s = false → stopClick s = s) := by
  refine ⟨?_, ?_, ?_, ?_⟩
  · intro h
    refine ⟨startClick s, micSettled { startClick s with micRequests := s.micRequests } true,
      by simp [step, h], by simp [step, startClick], ?_⟩
    simp [micSettled, startClick, isRecording]
  · simp [micSettled, isRecording]
  · intro h
    unfold isRecording at h
    cases hm : s.mediaRecorder with
    | none => simp [hm] at h
    | some r =>
      simp only [hm, decide_eq_true_eq] at h
      have hlt : r < s.recorders.length := by
        by_contra hc
        rw [List.getElem?_eq_none (by omega)] at h
        exact absurd h (by simp)
      simp [stopClick, hm, h, isRecording, List.getElem?_set, hlt]
  · intro h
    unfold isRecording at h
    cases hm : s.mediaRecorder with
    | none => simp [stopClick, hm]
    | some r =>
      simp only [hm, decide_eq_false_iff_not] at h
      simp [stopClick, hm, h]

/-- Witness of C3: the first recording on a freshly loaded page, stopped by a
click. -/
theorem C3_recording_controls_witness :
    (Page.loaded "localhost").startDisabled = false ∧
    isRecording (micSettled (Page.loaded "localhost") true) = true ∧
    (stopClick (micSettled (Page.loaded "localhost") true)).startDisabled = false ∧
    (stopClick (micSettled (Page.loaded "localhost") true)).stopDisabled = true ∧
    isRecording (Page.loaded "localhost") = false ∧
    stopClick (Page.loaded "localhost") = Page.loaded "localhost" := by
  have h := C3_recording_controls (micSettled (Page.loaded "localhost") true)
  have h0 := C3_recording_controls (Page.loaded "localhost")
  have hr : isRecording (micSettled (Page.loaded "localhost") true) = true := by decide
  exact ⟨rfl, hr, (h.2.2.1 hr).1, (h.2.2.1 hr).2.1, by decide, h0.2.2.2 (by decide)⟩

/-- C5, as the script has it: when the text-to-speech `fetch` is rejected, or
a response arrives whose body cannot be read as a blob, the error is logged,
the alert `"Error converting text to speech"` is shown and no playback is
started; and whatever the outcome, settling issues no further request. -/
theorem C5_tts_failure (s : Page) (outcome : TtsOutcome)
    (hfail : outcome = .rejected ∨ ∃ status, outcome = .unreadable status) :
    (ttsSettled s outcome).alerts = s.alerts ++ ["Error converting text to speech"] ∧
    (ttsSettled s outcome).consoleErrors = s.consoleErrors ++ ["Error:"] ∧
    (ttsSettled s outcome).playbacks = s.playbacks ∧
    ∀ o : TtsOutcome, (ttsSettled s o).requests = s.requests ∧
      (ttsSettled s o).ttsPending = s.ttsPending := by
  refine ⟨?_, ?_, ?_, ?_⟩
  · rcases hfail with h | ⟨st, h⟩ <;> subst h <;> rfl
  · rcases hfail with h | ⟨st, h⟩ <;> subst h <;> rfl
  · rcases hfail with h | ⟨st, h⟩ <;> subst h <;> rfl
  · intro o
    cases o <;> exact ⟨rfl, rfl⟩

/-- Witness of C5: a rejected request on a freshly loaded page. -/
theorem C5_tts_failure_witness :
    (ttsSettled (Page.loaded "localhost") .rejected).alerts =
      ["Error converting text to speech"] ∧
    (ttsSettled (Page.loaded "localhost") .rejected).playbacks = [] :=
  ⟨(C5_tts_failure (Page.loaded "localhost") .rejected (Or.inl rfl)).1,
    (C5_tts_failure (Page.loaded "localhost") .rejected (Or.inl rfl)).2.2.1⟩

/-- C5 fails as stated: the text `"hi"` is submitted and the server answers
with status 500 and a body of three bytes.  No alert is shown, nothing is
logged, and the body is handed to an audio element and played. -/
theorem C5_status_counterexample :
    (run { Page.loaded "localhost" with textInput := "hi" }
        [.speakClick, .ttsSettle 0 (.body 500 ⟨[123, 125, 10], "application/json"⟩)]).map
      (fun s => (s.alerts, s.consoleErrors, s.playbacks, s.requests.length)) =
    some ([], [], [⟨[123, 125, 10], "application/json"⟩], 1) := by
  decide

/-- C6 at the empty string: the body `{transcription: ""}` has a
`transcription` field whose value is a string, and the script puts the generic
unknown-error text into the output field, not the transcription; the body
`{error: ""}` has an `error` field and no `transcription` field, and the
script shows the generic text as well, not `"Error: "`.  The guards of lines
109 and 112 test the truthiness of the field, not its presence. -/
theorem C6_empty_string_evaluation :
    JsVal.hasProp (.obj [("transcription", .str "")]) "transcription" = true ∧
    (sttSettled (Page.loaded "localhost")
      (.json (.obj [("transcription", .str "")]))).textOutput = "An unknown error occurred" ∧
    JsVal.hasProp (.obj [("error", .str "")]) "transcription" = false ∧
    JsVal.hasProp (.obj [("error", .str "")]) "error" = true ∧
    (sttSettled (Page.loaded "localhost")
      (.json (.obj [("error", .str "")]))).textOutput = "An unknown error occurred" := by
  decide

/-- C4: in every trace of the page from its load, whenever the stop event of a
recorder `r` fires, the blob it builds is made of exactly the fragments that
`r` has delivered, in delivery order: its bytes are theirs in a row and its
size is the sum of their sizes, so no fragment of an earlier session or of
another recorder is in it; and `audioChunks` is empty afterwards. -/
theorem C4_finalized_blob (hostname : String) (pre post : List Event) (r : Nat) (s3 : Page)
    (hrun : browserRun (Page.loaded hostname) (pre ++ .recorderStop r :: post) = some s3) :
    ∃ s1 s2, run (Page.loaded hostname) pre = some s1 ∧
      step s1 (.recorderStop r) = some s2 ∧
      s2.audioBlob = some (Blob.ofParts (deliveredBy r pre) "audio/wav") ∧
      (Blob.ofParts (deliveredBy r pre) "audio/wav").bytes =
        ((deliveredBy r pre).map Blob.bytes).flatten ∧
      (Blob.ofParts (deliveredBy r pre) "audio/wav").size =
        ((deliveredBy r pre).map Blob.size).sum ∧
      s2.audioChunks = [] := by
  obtain ⟨q, q1, s1, s2, hq, hoe, hl, hse⟩ := browserRun_split _ s3 pre post _ hrun
  have inv := traceInv_run (Page.loaded hostname) rfl pre q s1 hq hl
  have hqr : q = some r := by
    cases q with
    | none => simp [orderStep] at hoe
    | some r0 =>
      by_cases h : r0 = r
      · rw [h]
      · simp [orderStep, h] at hoe
  have hdue := inv.due r hqr
  refine ⟨s1, s2, hl, hse, ?_, rfl, Blob.size_ofParts _ _, ?_⟩
  · simp only [step, hdue.2.2, if_true, Option.some.injEq] at hse
    subst hse
    simp [onstop, displayRecordedAudio, hdue.1]
  · simp only [step, hdue.2.2, if_true, Option.some.injEq] at hse
    subst hse
    rfl

/-- Witness of C4: two start clicks give the recorders 0 and 1; recorder 1 is
stopped by a click and delivers `[3, 4]`; its blob is `[3, 4]`. -/
theorem C4_finalized_blob_witness :
    ∃ s1 s2,
      run (Page.loaded "localhost")
        [.startClick, .startClick, .micSettle true, .micSettle true, .stopClick,
          .dataAvailable 1 ⟨[3, 4], "audio/webm"⟩] = some s1 ∧
      step s1 (.recorderStop 1) = some s2 ∧
      s2.audioBlob = some ⟨[3, 4], "audio/wav"⟩ ∧ s2.audioChunks = [] := by
  obtain ⟨s1, s2, h1, h2, hb, _, _, hc⟩ := C4_finalized_blob "localhost"
    [.startClick, .startClick, .micSettle true, .micSettle true, .stopClick,
      .dataAvailable 1 ⟨[3, 4], "audio/webm"⟩] [] 1 _ rfl
  exact ⟨s1, s2, h1, h2, hb, hc⟩

/-- C7: in every trace of the page from its load and at every event `e` of
it, the recording is finalized (the blob, its URL or the playback widget with
the send button is written) only if `e` is the stop event of a recorder and
the fragment buffer is not empty; no stop event fires on an empty buffer: at
the stop event of a recorder `r` the buffer holds the fragments that `r`
delivered, one at least, and the blob, the URL and the widget are built from
them. -/
theorem C7_finalized_only_with_fragment (hostname : String) (pre post : List Event)
    (e : Event) (s3 : Page)
    (hrun : browserRun (Page.loaded hostname) (pre ++ e :: post) = some s3) :
    ∃ s1 s2, run (Page.loaded hostname) pre = some s1 ∧ step s1 e = some s2 ∧
      ((s2.audioBlob ≠ s1.audioBlob ∨ s2.audioUrl ≠ s1.audioUrl ∨
          s2.audioContainer ≠ s1.audioContainer) →
        e.isRecorderStop = true ∧ s1.audioChunks ≠ []) ∧
      (∀ r, e = .recorderStop r →
        s1.audioChunks = deliveredBy r pre ∧ s1.audioChunks ≠ [] ∧
        s2.audioBlob = some (Blob.ofParts s1.audioChunks "audio/wav") ∧
        s2.audioUrl = some ⟨Blob.ofParts s1.audioChunks "audio/wav"⟩ ∧
        s2.audioContainer =
          some ⟨true, some ⟨Blob.ofParts s1.audioChunks "audio/wav"⟩, "Send to Server"⟩) := by
  obtain ⟨q, q1, s1, s2, hq, hoe, hl, hse⟩ := browserRun_split _ s3 pre post _ hrun
  have inv := traceInv_run (Page.loaded hostname) rfl pre q s1 hq hl
  have hstop : ∀ r, e = .recorderStop r →
      s1.audioChunks = deliveredBy r pre ∧ s1.audioChunks ≠ [] ∧
      s2.audioBlob = some (Blob.ofParts s1.audioChunks "audio/wav") ∧
      s2.audioUrl = some ⟨Blob.ofParts s1.audioChunks "audio/wav"⟩ ∧
      s2.audioContainer =
        some ⟨true, some ⟨Blob.ofParts s1.audioChunks "audio/wav"⟩, "Send to Server"⟩ := by
    intro r he
    subst he
    have hqr : q = some r := by
      cases q with
      | none => simp [orderStep] at hoe
      | some r0 =>
        by_cases h : r0 = r
        · rw [h]
        · simp [orderStep, h] at hoe
    have hdue := inv.due r hqr
    simp only [step, hdue.2.2, if_true, Option.some.injEq] at hse
    subst hse
    exact ⟨hdue.1, by rw [hdue.1]; exact hdue.2.1, rfl, rfl, rfl⟩
  refine ⟨s1, s2, hl, hse, ?_, hstop⟩
  intro hchg
  by_cases hs : e.isRecorderStop = true
  · refine ⟨hs, ?_⟩
    cases e with
    | recorderStop r => exact (hstop r rfl).2.1
    | _ => simp [Event.isRecorderStop] at hs
  · have hk := step_keeps_recording s1 s2 e hse (by simpa using hs)
    rcases hchg with h | h | h
    · exact absurd hk.1 h
    · exact absurd hk.2.1 h
    · exact absurd hk.2.2.1 h

/-- Witness of C7: a recording is started and stopped at once; the recorder
delivers its one fragment, here an empty one, and then fires its stop event
on a buffer of one fragment. -/
theorem C7_finalized_only_with_fragment_witness :
    ∃ s1 s2,
      run (Page.loaded "localhost")
        [.startClick, .micSettle true, .stopClick,
          .dataAvailable 0 ⟨[], "audio/webm"⟩] = some s1 ∧
      step s1 (.recorderStop 0) = some s2 ∧
      s1.audioChunks = [⟨[], "audio/webm"⟩] ∧
      s2.audioBlob = some ⟨[], "audio/wav"⟩ := by
  obtain ⟨s1, s2, h1, h2, _, hs⟩ := C7_finalized_only_with_fragment "localhost"
    [.startClick, .micSettle true, .stopClick, .dataAvailable 0 ⟨[], "audio/webm"⟩] []
    (.recorderStop 0) _ rfl
  obtain ⟨hb, _, hblob, _, _⟩ := hs 0 rfl
  exact ⟨s1, s2, h1, h2, hb, by rw [hblob, hb]; rfl⟩

/-- The frame that follows the frames of `flags`. -/
theorem animateFrames_append {α : Type} [Add α] [OfScientific α] (flags : List Bool) :
    ∀ (rotation : Rotation α) (flag : Bool),
      animateFrames rotation (flags ++ [flag]) =
        updateParticleSpeed (animateFrames rotation flags)
          (if flag then fastSpeed else normalSpeed) := by
  induction flags with
  | nil => intro rotation flag; rfl
  | cons f fs ih =>
    intro rotation flag
    simp only [List.cons_append, animateFrames]
    exact ih _ flag

/-- C8: a frame of `animateBackground` adds one and the same amount to the
rotation about x and about y; the amount is `fastSpeed`, 0.0009, when
`isProcessing` is true as the frame runs and `normalSpeed`, 0.0001, when it
is false; two pages with the same flag give the same frame; and in a run of
frames each frame's increment is fixed by the flag at that frame alone,
whatever the flag was in the frames before. -/
theorem C8_frame_increment {α : Type} [Add α] [OfScientific α] (s : Page)
    (rotation : Rotation α) :
    (s.isProcessing = true →
      animateBackground s rotation = ⟨rotation.x + fastSpeed, rotation.y + fastSpeed⟩ ∧
      (fastSpeed : α) = 0.0009) ∧
    (s.isProcessing = false →
      animateBackground s rotation = ⟨rotation.x + normalSpeed, rotation.y + normalSpeed⟩ ∧
      (normalSpeed : α) = 0.0001) ∧
    (∀ s2 : Page, s2.isProcessing = s.isProcessing →
      animateBackground s2 rotation = animateBackground s rotation) ∧
    (∀ flags : List Bool,
      animateFrames rotation (flags ++ [s.isProcessing]) =
        animateBackground s (animateFrames rotation flags)) := by
  refine ⟨?_, ?_, ?_, ?_⟩
  · intro h
    simp [animateBackground, updateParticleSpeed, h, fastSpeed]
  · intro h
    simp [animateBackground, updateParticleSpeed, h, normalSpeed]
  · intro s2 h
    simp [animateBackground, h]
  · intro flags
    rw [animateFrames_append]
    rfl

/-- Witness of C8, over the rationals: from rotation 0 a frame that runs
while a request is outstanding gives 9/10000 on both axes, a frame of the
idle page gives 1/10000. -/
theorem C8_frame_increment_witness :
    (sendAudioToServer (Page.loaded "localhost") ⟨[], "audio/wav"⟩).isProcessing = true ∧
    animateBackground (sendAudioToServer (Page.loaded "localhost") ⟨[], "audio/wav"⟩)
      (⟨0, 0⟩ : Rotation ℚ) = ⟨0 + fastSpeed, 0 + fastSpeed⟩ ∧
    (fastSpeed : ℚ) = 9 / 10000 ∧
    animateBackground (Page.loaded "localhost") (⟨0, 0⟩ : Rotation ℚ) =
      ⟨0 + normalSpeed, 0 + normalSpeed⟩ ∧
    (normalSpeed : ℚ) = 1 / 10000 := by
  have h1 := (C8_frame_increment
    (sendAudioToServer (Page.loaded "localhost") ⟨[], "audio/wav"⟩) (⟨0, 0⟩ : Rotation ℚ)).1 rfl
  have h2 := (C8_frame_increment (Page.loaded "localhost") (⟨0, 0⟩ : Rotation ℚ)).2.1 rfl
  refine ⟨rfl, h1.1, ?_, h2.1, ?_⟩
  · rw [h1.2]; norm_num
  · rw [h2.2]; norm_num

/-- C10: the send button dispatches a request whatever is outstanding; there
is a trace in which a second send is dispatched before the first settles and
the settling of the first leaves `isProcessing` false with the second
request (number 1) still outstanding; and in every state, the settling of any
outstanding request, with any outcome, leaves the flag false and every other
outstanding request outstanding. -/
theorem C10_overlapping_sends :
    (∀ (s : Page) (b : Blob), s.audioContainer.isSome = true → s.audioBlob = some b →
      step s .sendClick = some (sendAudioToServer s b) ∧
      (sendAudioToServer s b).sttPending = s.sttPending ++ [s.requests.length]) ∧
    (run (Page.loaded "localhost")
        [.startClick, .micSettle true, .dataAvailable 0 ⟨[1], "audio/webm"⟩, .stopClick,
          .recorderStop 0, .sendClick, .sendClick]).map
      (fun s => (s.isProcessing, s.sttPending)) = some (true, [0, 1]) ∧
    (run (Page.loaded "localhost")
        [.startClick, .micSettle true, .dataAvailable 0 ⟨[1], "audio/webm"⟩, .stopClick,
          .recorderStop 0, .sendClick, .sendClick,
          .sttSettle 0 (.json (.obj [("transcription", .str "hello")]))]).map
      (fun s => (s.isProcessing, s.sttPending)) = some (false, [1]) ∧
    (∀ (s : Page) (id : Nat) (outcome : SttOutcome), id ∈ s.sttPending →
      ∃ s1, step s (.sttSettle id outcome) = some s1 ∧ s1.isProcessing = false ∧
        s1.sttPending = s.sttPending.erase id) := by
  refine ⟨?_, by decide, by decide, ?_⟩
  · intro s b hc hb
    simp [step, hc, sendClick, hb, sendAudioToServer]
  · intro s id outcome hid
    exact ⟨sttSettled { s with sttPending := s.sttPending.erase id } outcome,
      by simp [step, hid], sttSettled_isProcessing _ _, sttSettled_sttPending _ _⟩

/-- Witness of C10: with the requests 0, 1 and 2 outstanding on a page whose
flag is true, the settling of request 1 clears the flag and leaves 0 and 2
outstanding. -/
theorem C10_overlapping_sends_witness :
    (1 : Nat) ∈ ({ Page.loaded "localhost" with
        isProcessing := true, sttPending := [0, 1, 2] } : Page).sttPending ∧
    ∃ s1, step { Page.loaded "localhost" with isProcessing := true, sttPending := [0, 1, 2] }
        (.sttSettle 1 .rejected) = some s1 ∧
      s1.isProcessing = false ∧ s1.sttPending = [0, 2] := by
  obtain ⟨s1, h1, hf, hp⟩ := C10_overlapping_sends.2.2.2
    { Page.loaded "localhost" with isProcessing := true, sttPending := [0, 1, 2] } 1 .rejected
    (by decide)
  exact ⟨by decide, s1, h1, hf, by rw [hp]; decide⟩

/-- C9: for every random source with draws in [0, 1), and roundings to double
and to single precision that are monotone and exact on the half-integers up to
1000, the initialisation loop gives `positions` 30000 entries and `sizes`
10000 entries, writes every index of `positions` and every index of `sizes`
exactly once and nothing else, leaves every coordinate in [-1000, 1000] and
every size in [1, 5], and consumes 40000 draws. -/
theorem C9_particle_field (fl64 fl32 : ℚ → ℚ) (rand : Nat → ℚ)
    (h64 : IsRounding fl64) (h32 : IsRounding fl32)
    (hrand : ∀ k, 0 ≤ rand k ∧ rand k < 1) :
    particleCount = 10000 ∧
    (initParticles fl64 fl32 rand).positions.length = 3 * particleCount ∧
    (initParticles fl64 fl32 rand).sizes.length = particleCount ∧
    (∀ j, j < 3 * particleCount → (initParticles fl64 fl32 rand).positionWrites.count j = 1) ∧
    (initParticles fl64 fl32 rand).positionWrites.length = 3 * particleCount ∧
    (∀ j, j < particleCount → (initParticles fl64 fl32 rand).sizeWrites.count j = 1) ∧
    (initParticles fl64 fl32 rand).sizeWrites.length = particleCount ∧
    (∀ x ∈ (initParticles fl64 fl32 rand).positions, -1000 ≤ x ∧ x ≤ 1000) ∧
    (∀ x ∈ (initParticles fl64 fl32 rand).sizes, 1 ≤ x ∧ x ≤ 5) ∧
    (initParticles fl64 fl32 rand).draws = 4 * particleCount := by
  have inv := loopInv_loop h64 h32 rand hrand particleCount particleCount
  change LoopInv particleCount particleCount (initParticles fl64 fl32 rand) at inv
  refine ⟨rfl, ?_, inv.sizeLen, ?_, ?_, ?_, ?_, inv.posBound, ?_, ?_⟩
  · rw [inv.posLen, Nat.mul_comm]
  · intro j hj
    rw [inv.posWrites]
    exact List.count_eq_one_of_mem (List.nodup_range _)
      (List.mem_range.mpr (by rw [Nat.mul_comm]; exact hj))
  · rw [inv.posWrites, List.length_range, Nat.mul_comm]
  · intro j hj
    rw [inv.sizeWrites]
    exact List.count_eq_one_of_mem (List.nodup_range _) (List.mem_range.mpr hj)
  · rw [inv.sizeWrites, List.length_range]
  · intro x hx
    obtain ⟨j, hj, hjx⟩ := List.getElem_of_mem hx
    rw [inv.sizeLen] at hj
    exact inv.sizeBound j hj x (by rw [List.getElem?_eq_getElem, hjx])
  · rw [inv.draws, Nat.mul_comm]

/-- The identity, exact arithmetic, is a rounding. -/
theorem isRounding_id : IsRounding id :=
  ⟨monotone_id, fun _ _ => rfl⟩

/-- Witness of C9: exact arithmetic and a source that always draws 1/4. -/
theorem C9_particle_field_witness :
    IsRounding id ∧ (∀ k : Nat, (0 : ℚ) ≤ (fun _ => 1 / 4) k ∧ (fun _ => (1 / 4 : ℚ)) k < 1) ∧
    (initParticles id id (fun _ => 1 / 4)).positions.length = 3 * particleCount ∧
    (∀ x ∈ (initParticles id id (fun _ => 1 / 4)).sizes, 1 ≤ x ∧ x ≤ 5) := by
  have h := C9_particle_field id id (fun _ => 1 / 4) isRounding_id isRounding_id
    (fun _ => by norm_num)
  exact ⟨isRounding_id, fun _ => by norm_num, h.2.1, h.2.2.2.2.2.2.2.2.1⟩

end VoicePage
